import Mathlib

/-!
Verification of the ownership-scoped query filter of the recipe API
(`app/recipe/views.py`, `app/recipe/serializers.py`).

Querysets are modelled as lists of rows; Django ORM relation filters
(`recipe__isnull=False`, `tags__id__in=...`) are modelled with SQL join
semantics, producing one copy of a row per matching related row, so that
`.distinct()` is load-bearing.  `order_by` is modelled by insertion sort and
`.distinct()` by `List.dedup`.
-/

/-- Modelled from the spec: `core/models.py` is not in the source tree; a Tag
has an identifier, a name and an owning user (spec section 3). -/
structure Tag where
  id : Nat
  name : String
  user : Nat
deriving DecidableEq

/-- Modelled from the spec: `core/models.py` is not in the source tree; an
Ingredient has an identifier, a name and an owning user (spec section 3). -/
structure Ingredient where
  id : Nat
  name : String
  user : Nat
deriving DecidableEq

/-- Modelled from the spec: `core/models.py` is not in the source tree; a
Recipe has an identifier, a title, an optional description, a time in
minutes, an optional link, an owning user, and many-to-many sets of tags and
ingredients, held here as lists of related ids (spec section 3). -/
structure Recipe where
  id : Nat
  title : String
  description : String
  time_mins : Nat
  link : String
  user : Nat
  tags : List Nat
  ingredients : List Nat
deriving DecidableEq

/-- The visible database state: the three tables. -/
structure DB where
  tags : List Tag
  ingredients : List Ingredient
  recipes : List Recipe
deriving DecidableEq

/-- Consume the digit body of a Python integer literal: one or more decimal
digits, single underscores allowed between digits.  `acc` is `some v` once at
least one digit has been read. -/
def pyDigits : List Char → Option Nat → Option Nat
  | [], acc => acc
  | c :: cs, acc =>
    if c.isDigit then
      pyDigits cs (some ((acc.getD 0) * 10 + (c.toNat - 48)))
    else if c = '_' then
      match acc, cs with
      | some v, c2 :: _ => if c2.isDigit then pyDigits cs (some v) else none
      | _, _ => none
    else none

/-- Modelled from the spec: the Python built-in `int(str)` used by the views
(its implementation is outside the repository): strips surrounding
whitespace, accepts an optional sign and a nonempty digit string, and fails
(`ValueError`, here `none`) on anything else.  This version works on the
character list of the string. -/
def pyIntChars (l : List Char) : Option Int :=
  let cs := ((l.dropWhile Char.isWhitespace).reverse.dropWhile
    Char.isWhitespace).reverse
  match cs with
  | '+' :: rest => (pyDigits rest none).map Int.ofNat
  | '-' :: rest => (pyDigits rest none).map (fun n => -(n : Int))
  | rest => (pyDigits rest none).map Int.ofNat

/-- The Python built-in `int` on a string. -/
def pyInt (s : String) : Option Int :=
  pyIntChars s.toList

/-- Python `str.split(',')` on the character list: split at every comma,
keeping empty segments (so `"" ↦ [[]]` and `"1,," ↦ [[1], [], []]`),
matching Python `str.split` with an explicit one-character separator. -/
def splitComma : List Char → List Char → List (List Char)
  | [], acc => [acc.reverse]
  | c :: cs, acc =>
    if c = ',' then acc.reverse :: splitComma cs []
    else splitComma cs (c :: acc)

/-- The Python expression `list(map(int, s.split(',')))`. -/
def parseIntList (s : String) : Option (List Int) :=
  (splitComma s.toList []).mapM pyIntChars

/-- Lexicographic less-or-equal on lists of naturals, used to model the
database's ordinal string collation for `order_by('name')`. -/
def lexLe : List Nat → List Nat → Bool
  | [], _ => true
  | _ :: _, [] => false
  | a :: as, b :: bs =>
    if a < b then true
    else if b < a then false
    else lexLe as bs

theorem lexLe_total : ∀ xs ys : List Nat, lexLe xs ys = true ∨ lexLe ys xs = true
  | [], _ => Or.inl rfl
  | _ :: _, [] => Or.inr rfl
  | a :: as, b :: bs => by
    rcases Nat.lt_trichotomy a b with h | h | h
    · left; simp [lexLe, h]
    · subst h
      rcases lexLe_total as bs with ih | ih <;> simp [lexLe, ih]
    · right; simp [lexLe, h]

theorem lexLe_trans : ∀ xs ys zs : List Nat,
    lexLe xs ys = true → lexLe ys zs = true → lexLe xs zs = true
  | [], _, _, _, _ => rfl
  | _ :: _, [], _, h1, _ => by simp [lexLe] at h1
  | _ :: _, _ :: _, [], _, h2 => by simp [lexLe] at h2
  | a :: as, b :: bs, c :: cs, h1, h2 => by
    simp only [lexLe] at h1 h2 ⊢
    by_cases hab : a < b
    · by_cases hbc : b < c
      · simp [Nat.lt_trans hab hbc]
      · by_cases hcb : c < b
        · simp [hbc, hcb] at h2
        · have hbc' : b = c := by omega
          subst hbc'; simp [hab]
    · by_cases hba : b < a
      · simp [hab, hba] at h1
      · have hab' : a = b := by omega
        subst hab'
        simp only [hab, if_false, Nat.lt_irrefl] at h1
        by_cases hac : a < c
        · simp [hac]
        · by_cases hca : c < a
          · simp [hac, hca] at h2
          · simp only [hac, hca, if_false] at h2 ⊢
            exact lexLe_trans as bs cs h1 h2

/-- Ordinal (code-point lexicographic) comparison of strings. -/
def strLe (a b : String) : Bool :=
  lexLe (a.toList.map Char.toNat) (b.toList.map Char.toNat)

theorem strLe_total (a b : String) : strLe a b = true ∨ strLe b a = true :=
  lexLe_total _ _

theorem strLe_trans {a b c : String} (h1 : strLe a b = true)
    (h2 : strLe b c = true) : strLe a c = true :=
  lexLe_trans _ _ _ h1 h2

/-- Ordering relation used by `order_by('name')` on tags. -/
def tagLe (a b : Tag) : Prop := strLe a.name b.name = true

instance : DecidableRel tagLe := fun a b =>
  inferInstanceAs (Decidable (strLe a.name b.name = true))

instance : IsTotal Tag tagLe := ⟨fun a b => strLe_total a.name b.name⟩

instance : IsTrans Tag tagLe := ⟨fun _ _ _ => strLe_trans⟩

/-- Ordering relation used by `order_by('name')` on ingredients. -/
def ingredientLe (a b : Ingredient) : Prop := strLe a.name b.name = true

instance : DecidableRel ingredientLe := fun a b =>
  inferInstanceAs (Decidable (strLe a.name b.name = true))

instance : IsTotal Ingredient ingredientLe := ⟨fun a b => strLe_total a.name b.name⟩

instance : IsTrans Ingredient ingredientLe := ⟨fun _ _ _ => strLe_trans⟩

/-- Ordering relation used by `order_by('-id')` on recipes: identifier
descending. -/
def recipeGe (a b : Recipe) : Prop := b.id ≤ a.id

instance : DecidableRel recipeGe := fun a b =>
  inferInstanceAs (Decidable (b.id ≤ a.id))

instance : IsTotal Recipe recipeGe := ⟨fun a b => le_total b.id a.id⟩

instance : IsTrans Recipe recipeGe := ⟨fun _ _ _ h h' => le_trans h' h⟩

/-- The tail of every queryset chain in the views:
`.filter(user=...).order_by(key).distinct()`. -/
def scopeChain {α : Type} [DecidableEq α] (rel : α → α → Prop) [DecidableRel rel]
    (p : α → Bool) (l : List α) : List α :=
  ((l.filter p).insertionSort rel).dedup

/-- The join performed by `Tag.objects.filter(recipe__isnull=False)`: each tag
row appears once per related recipe row (inner join on the through table). -/
def tagAssignedJoin (db : DB) (l : List Tag) : List Tag :=
  l.flatMap (fun t =>
    (db.recipes.filter (fun r => decide (t.id ∈ r.tags))).map (fun _ => t))

/-- The join performed by `Ingredient.objects.filter(recipe__isnull=False)`. -/
def ingredientAssignedJoin (db : DB) (l : List Ingredient) : List Ingredient :=
  l.flatMap (fun t =>
    (db.recipes.filter (fun r => decide (t.id ∈ r.ingredients))).map (fun _ => t))

/-- The join performed by `Recipe.objects.filter(tags__id__in=tag_ids)`: each
recipe row appears once per attached tag id that is in `ids`. -/
def recipeTagJoin (ids : List Int) (l : List Recipe) : List Recipe :=
  l.flatMap (fun r =>
    (r.tags.filter (fun (t : Nat) => decide ((t : Int) ∈ ids))).map (fun _ => r))

/-- The join performed by `Recipe.objects.filter(ingredients__id__in=...)`. -/
def recipeIngredientJoin (ids : List Int) (l : List Recipe) : List Recipe :=
  l.flatMap (fun r =>
    (r.ingredients.filter (fun (t : Nat) => decide ((t : Int) ∈ ids))).map (fun _ => r))

/-- `int(self.request.query_params.get('assigned_only', 0))`: an absent
parameter defaults to the integer `0`; a present parameter is a string fed to
`int`, whose `ValueError` is `none` here. -/
def assignedParam : Option String → Option Int
  | none => some 0
  | some s => pyInt s

/-- `BaseRecipeAttrViewSet.get_queryset` specialised to `TagViewSet`
(`views.py` lines 22-35): parse `assigned_only`, optionally restrict to tags
with at least one related recipe, then
`.filter(user=...).order_by('name').distinct()`.  A `ValueError` from `int`
raises `ParseError('assigned_only must be an integer')`, modelled as
`.error` with the message. -/
def tagList (db : DB) (u : Nat) (p : Option String) : Except String (List Tag) :=
  match assignedParam p with
  | none => .error "assigned_only must be an integer"
  | some n =>
    let queryset := if n ≠ 0 then tagAssignedJoin db db.tags else db.tags
    .ok (scopeChain tagLe (fun t => decide (t.user = u)) queryset)

/-- `BaseRecipeAttrViewSet.get_queryset` specialised to `IngredientViewSet`. -/
def ingredientList (db : DB) (u : Nat) (p : Option String) :
    Except String (List Ingredient) :=
  match assignedParam p with
  | none => .error "assigned_only must be an integer"
  | some n =>
    let queryset := if n ≠ 0 then ingredientAssignedJoin db db.ingredients
      else db.ingredients
    .ok (scopeChain ingredientLe (fun t => decide (t.user = u)) queryset)

/-- The `if tags:` block of `RecipeViewSet.get_queryset` (`views.py` lines
66-75): an absent or empty (falsy) parameter applies no filter; otherwise the
comma-separated ids are parsed, a `ValueError` raising
`ParseError('tags must be a comma separated list of integers')`. -/
def applyTagFilter (tp : Option String) (l : List Recipe) :
    Except String (List Recipe) :=
  match tp with
  | none => .ok l
  | some s =>
    if s = "" then .ok l
    else
      match parseIntList s with
      | none => .error "tags must be a comma separated list of integers"
      | some ids => .ok (recipeTagJoin ids l)

/-- The `if ingredients:` block of `RecipeViewSet.get_queryset` (`views.py`
lines 76-82). -/
def applyIngredientFilter (ip : Option String) (l : List Recipe) :
    Except String (List Recipe) :=
  match ip with
  | none => .ok l
  | some s =>
    if s = "" then .ok l
    else
      match parseIntList s with
      | none => .error "ingredients must be a comma separated list of integers"
      | some ids => .ok (recipeIngredientJoin ids l)

/-- `RecipeViewSet.get_queryset` (`views.py` lines 64-85): tag filter, then
ingredient filter, then `.filter(user=...).order_by('-id').distinct()`. -/
def recipeList (db : DB) (u : Nat) (tp ip : Option String) :
    Except String (List Recipe) :=
  (applyTagFilter tp db.recipes).bind (fun l1 =>
    (applyIngredientFilter ip l1).bind (fun l2 =>
      .ok (scopeChain recipeGe (fun r => decide (r.user = u)) l2)))

/-- Outcome of a detail (retrieve-by-id) request. -/
inductive DetailResult (α : Type) where
  | ok (row : α)
  | notFound (detail : String)
deriving DecidableEq

/-- Modelled from the spec: the framework's `get_object` looks the pk up in
`get_queryset()` (no query parameters on a detail request) and raises a 404
with detail "Not found." when no row matches (spec sections 4.2 and 6). -/
def detailTag (db : DB) (u : Nat) (pk : Nat) : DetailResult Tag :=
  match (scopeChain tagLe (fun t => decide (t.user = u)) db.tags).find?
      (fun t => decide (t.id = pk)) with
  | some t => .ok t
  | none => .notFound "Not found."

/-- Retrieve-by-id for ingredients, as for tags. -/
def detailIngredient (db : DB) (u : Nat) (pk : Nat) : DetailResult Ingredient :=
  match (scopeChain ingredientLe (fun t => decide (t.user = u))
      db.ingredients).find? (fun t => decide (t.id = pk)) with
  | some t => .ok t
  | none => .notFound "Not found."

/-- Retrieve-by-id for recipes, as for tags. -/
def detailRecipe (db : DB) (u : Nat) (pk : Nat) : DetailResult Recipe :=
  match (scopeChain recipeGe (fun r => decide (r.user = u)) db.recipes).find?
      (fun r => decide (r.id = pk)) with
  | some r => .ok r
  | none => .notFound "Not found."

/-- Creating a recipe through `RecipeSerializer` and
`RecipeViewSet.perform_create`: the `tags` and `ingredients` payload entries
are primary keys validated against the full tables (`Tag.objects.all()`,
`Ingredient.objects.all()` in `serializers.py` — no ownership restriction);
on success the new row is owned by the requesting user
(`serializer.save(user=self.request.user)`), with the database assigning the
fresh id `rid`.  Validation failure (an unknown pk) is `none`. -/
def createRecipe (db : DB) (u : Nat) (rid : Nat) (title descr : String)
    (tm : Nat) (lnk : String) (tagIds ingrIds : List Nat) :
    Option (DB × Recipe) :=
  if tagIds.all (fun i => db.tags.any (fun t => decide (t.id = i))) &&
      ingrIds.all (fun i => db.ingredients.any (fun t => decide (t.id = i))) then
    let r : Recipe := ⟨rid, title, descr, tm, lnk, u, tagIds, ingrIds⟩
    some ({ db with recipes := db.recipes ++ [r] }, r)
  else none

/-- The nested tag objects produced by `RecipeDetailSerializer`
(`tags = TagSerializer(many=True, read_only=True)`): the Tag rows attached to
the recipe. -/
def detailTagsOf (db : DB) (r : Recipe) : List Tag :=
  db.tags.filter (fun t => decide (t.id ∈ r.tags))

/-- The nested ingredient objects produced by `RecipeDetailSerializer`. -/
def detailIngredientsOf (db : DB) (r : Recipe) : List Ingredient :=
  db.ingredients.filter (fun t => decide (t.id ∈ r.ingredients))

/-- The HTTP verb of an update request. -/
inductive UpdateKind where
  | put
  | patch
deriving DecidableEq

/-- An update payload for the editable fields of `RecipeSerializer`
(`fields` minus the read-only `id`): `none` means the field is absent from
the payload. -/
structure RecipePayload where
  title : Option String
  description : Option String
  time_mins : Option Nat
  link : Option String
  tags : Option (List Nat)
  ingredients : Option (List Nat)

/-- Modelled from the spec: the framework's `ModelSerializer` update applied
to `RecipeSerializer` (the update machinery itself is outside the
repository).  Full update (PUT) replaces the whole representation: an absent
many-to-many field is reset to empty; partial update (PATCH) modifies only
the fields present in the payload and leaves absent fields at their previous
values (spec section 4.2).  The owner and id are never editable. -/
def updateRecipe (r : Recipe) (p : RecipePayload) : UpdateKind → Recipe
  | .put =>
    { r with
      title := p.title.getD r.title
      description := p.description.getD r.description
      time_mins := p.time_mins.getD r.time_mins
      link := p.link.getD r.link
      tags := p.tags.getD []
      ingredients := p.ingredients.getD [] }
  | .patch =>
    { r with
      title := p.title.getD r.title
      description := p.description.getD r.description
      time_mins := p.time_mins.getD r.time_mins
      link := p.link.getD r.link
      tags := p.tags.getD r.tags
      ingredients := p.ingredients.getD r.ingredients }

/-- A small database used to instantiate the hypotheses of the proved
theorems: two users, each owning rows of every kind. -/
def dbW : DB :=
  { tags := [⟨1, "Lunch", 1⟩, ⟨2, "Breakfast", 1⟩, ⟨3, "Vegan", 2⟩]
    ingredients := [⟨4, "Salt", 1⟩, ⟨5, "Sugar", 2⟩]
    recipes := [⟨10, "Pancakes", "", 5, "", 1, [1], [4]⟩,
                ⟨11, "Porridge", "", 3, "", 2, [1, 3], [5]⟩] }

/-- A database in which user 1 owns a tag and an ingredient that are attached
only to a recipe of user 2. -/
def dbX : DB :=
  { tags := [⟨1, "Breakfast", 1⟩]
    ingredients := [⟨2, "Salt", 1⟩]
    recipes := [⟨10, "Pancakes", "", 5, "", 2, [1], [2]⟩] }

/-- The empty database: no user owns any row. -/
def dbEmpty : DB := { tags := [], ingredients := [], recipes := [] }

example : pyInt "1" = some 1 := by decide
example : pyInt "0" = some 0 := by decide
example : pyInt "wrong" = none := by decide
example : pyInt "" = none := by decide
example : pyInt " -12 " = some (-12) := by decide
example : parseIntList "1,2" = some [1, 2] := by decide
example : parseIntList "1,wrong" = none := by decide

theorem mem_scopeChain {α : Type} [DecidableEq α] (rel : α → α → Prop)
    [DecidableRel rel] (p : α → Bool) (l : List α) (x : α) :
    x ∈ scopeChain rel p l ↔ x ∈ l ∧ p x = true := by
  simp [scopeChain, List.mem_dedup, List.mem_insertionSort, List.mem_filter]

theorem nodup_scopeChain {α : Type} [DecidableEq α] (rel : α → α → Prop)
    [DecidableRel rel] (p : α → Bool) (l : List α) :
    (scopeChain rel p l).Nodup :=
  List.nodup_dedup _

theorem sorted_scopeChain {α : Type} [DecidableEq α] (rel : α → α → Prop)
    [DecidableRel rel] [IsTotal α rel] [IsTrans α rel] (p : α → Bool)
    (l : List α) : (scopeChain rel p l).Sorted rel :=
  List.Pairwise.sublist (List.dedup_sublist _) (List.sorted_insertionSort rel _)

theorem mem_tagAssignedJoin {db : DB} {l : List Tag} {t : Tag} :
    t ∈ tagAssignedJoin db l ↔ t ∈ l ∧ ∃ r ∈ db.recipes, t.id ∈ r.tags := by
  simp only [tagAssignedJoin, List.mem_flatMap, List.mem_map, List.mem_filter,
    decide_eq_true_eq]
  constructor
  · rintro ⟨a, ha, _, ⟨hr, hm⟩, rfl⟩
    exact ⟨ha, _, hr, hm⟩
  · rintro ⟨ha, r, hr, hm⟩
    exact ⟨t, ha, r, ⟨hr, hm⟩, rfl⟩

theorem mem_ingredientAssignedJoin {db : DB} {l : List Ingredient}
    {t : Ingredient} :
    t ∈ ingredientAssignedJoin db l ↔
      t ∈ l ∧ ∃ r ∈ db.recipes, t.id ∈ r.ingredients := by
  simp only [ingredientAssignedJoin, List.mem_flatMap, List.mem_map,
    List.mem_filter, decide_eq_true_eq]
  constructor
  · rintro ⟨a, ha, _, ⟨hr, hm⟩, rfl⟩
    exact ⟨ha, _, hr, hm⟩
  · rintro ⟨ha, r, hr, hm⟩
    exact ⟨t, ha, r, ⟨hr, hm⟩, rfl⟩

theorem mem_recipeTagJoin {ids : List Int} {l : List Recipe} {x : Recipe} :
    x ∈ recipeTagJoin ids l ↔ x ∈ l ∧ ∃ t : Nat, t ∈ x.tags ∧ (t : Int) ∈ ids := by
  unfold recipeTagJoin
  rw [List.mem_flatMap]
  constructor
  · rintro ⟨a, ha, hx⟩
    rcases List.mem_map.1 hx with ⟨t, ht, rfl⟩
    rcases List.mem_filter.1 ht with ⟨ht1, ht2⟩
    exact ⟨ha, t, ht1, of_decide_eq_true ht2⟩
  · rintro ⟨ha, t, ht, hi⟩
    exact ⟨x, ha, List.mem_map.2
      ⟨t, List.mem_filter.2 ⟨ht, decide_eq_true hi⟩, rfl⟩⟩

theorem mem_recipeIngredientJoin {ids : List Int} {l : List Recipe}
    {x : Recipe} :
    x ∈ recipeIngredientJoin ids l ↔
      x ∈ l ∧ ∃ t : Nat, t ∈ x.ingredients ∧ (t : Int) ∈ ids := by
  unfold recipeIngredientJoin
  rw [List.mem_flatMap]
  constructor
  · rintro ⟨a, ha, hx⟩
    rcases List.mem_map.1 hx with ⟨t, ht, rfl⟩
    rcases List.mem_filter.1 ht with ⟨ht1, ht2⟩
    exact ⟨ha, t, ht1, of_decide_eq_true ht2⟩
  · rintro ⟨ha, t, ht, hi⟩
    exact ⟨x, ha, List.mem_map.2
      ⟨t, List.mem_filter.2 ⟨ht, decide_eq_true hi⟩, rfl⟩⟩

theorem find_eq_some_of_unique {α : Type} (p : α → Bool) (l : List α) (x : α)
    (hx : x ∈ l) (hpx : p x = true) (huniq : ∀ y ∈ l, p y = true → y = x) :
    l.find? p = some x := by
  induction l with
  | nil => cases hx
  | cons a l ih =>
    by_cases ha : p a = true
    · have hax : a = x := huniq a (List.mem_cons_self a l) ha
      subst hax
      simp [List.find?_cons_of_pos _ ha]
    · rw [List.find?_cons_of_neg _ (by simpa using ha)]
      rcases List.mem_cons.1 hx with rfl | hx'
      · exact absurd hpx ha
      · exact ih hx' (fun y hy hpy => huniq y (List.mem_cons_of_mem _ hy) hpy)

theorem tagList_ok {db : DB} {u : Nat} {p : Option String} {res : List Tag}
    (h : tagList db u p = .ok res) :
    ∃ n, assignedParam p = some n ∧
      res = scopeChain tagLe (fun t => decide (t.user = u))
        (if n ≠ 0 then tagAssignedJoin db db.tags else db.tags) := by
  unfold tagList at h
  rcases hp : assignedParam p with _ | n <;> rw [hp] at h
  · exact absurd h (by simp)
  · exact ⟨n, rfl, by injection h with h; exact h.symm⟩

theorem ingredientList_ok {db : DB} {u : Nat} {p : Option String}
    {res : List Ingredient} (h : ingredientList db u p = .ok res) :
    ∃ n, assignedParam p = some n ∧
      res = scopeChain ingredientLe (fun t => decide (t.user = u))
        (if n ≠ 0 then ingredientAssignedJoin db db.ingredients
          else db.ingredients) := by
  unfold ingredientList at h
  rcases hp : assignedParam p with _ | n <;> rw [hp] at h
  · exact absurd h (by simp)
  · exact ⟨n, rfl, by injection h with h; exact h.symm⟩

theorem except_bind_ok {ε α β : Type} (a : α) (f : α → Except ε β) :
    Except.bind (Except.ok a) f = f a := rfl

theorem except_bind_error {ε α β : Type} (e : ε) (f : α → Except ε β) :
    Except.bind (Except.error e) f = Except.error e := rfl

theorem recipeList_ok {db : DB} {u : Nat} {tp ip : Option String}
    {res : List Recipe} (h : recipeList db u tp ip = .ok res) :
    ∃ l1 l2, applyTagFilter tp db.recipes = .ok l1 ∧
      applyIngredientFilter ip l1 = .ok l2 ∧
      res = scopeChain recipeGe (fun r => decide (r.user = u)) l2 := by
  unfold recipeList at h
  rcases h1 : applyTagFilter tp db.recipes with e | l1 <;> rw [h1] at h
  · rw [except_bind_error] at h
    exact absurd h (by simp)
  · rw [except_bind_ok] at h
    rcases h2 : applyIngredientFilter ip l1 with e | l2 <;> rw [h2] at h
    · rw [except_bind_error] at h
      exact absurd h (by simp)
    · rw [except_bind_ok] at h
      exact ⟨l1, l2, rfl, h2, by injection h with h; exact h.symm⟩

theorem applyTagFilter_ok {tp : Option String} {l l' : List Recipe}
    (h : applyTagFilter tp l = .ok l') :
    ((tp = none ∨ tp = some "") ∧ l' = l) ∨
      ∃ s ids, tp = some s ∧ s ≠ "" ∧ parseIntList s = some ids ∧
        l' = recipeTagJoin ids l := by
  rcases tp with _ | s
  · left
    exact ⟨Or.inl rfl, by injection h with h; exact h.symm⟩
  · by_cases hs : s = ""
    · subst hs
      exact Or.inl ⟨Or.inr rfl, by injection h with h; exact h.symm⟩
    · simp only [applyTagFilter, if_neg hs] at h
      rcases hi : parseIntList s with _ | ids <;> rw [hi] at h
      · exact absurd h (by simp)
      · exact Or.inr ⟨s, ids, rfl, hs, hi,
          by injection h with h; exact h.symm⟩

theorem applyIngredientFilter_ok {ip : Option String} {l l' : List Recipe}
    (h : applyIngredientFilter ip l = .ok l') :
    ((ip = none ∨ ip = some "") ∧ l' = l) ∨
      ∃ s ids, ip = some s ∧ s ≠ "" ∧ parseIntList s = some ids ∧
        l' = recipeIngredientJoin ids l := by
  rcases ip with _ | s
  · left
    exact ⟨Or.inl rfl, by injection h with h; exact h.symm⟩
  · by_cases hs : s = ""
    · subst hs
      exact Or.inl ⟨Or.inr rfl, by injection h with h; exact h.symm⟩
    · simp only [applyIngredientFilter, if_neg hs] at h
      rcases hi : parseIntList s with _ | ids <;> rw [hi] at h
      · exact absurd h (by simp)
      · exact Or.inr ⟨s, ids, rfl, hs, hi,
          by injection h with h; exact h.symm⟩

/-- C1: for every authenticated principal and every valid combination of
filter parameters, the list operation for each of the three entity types
returns only rows whose owning user equals the principal; no row owned by a
different user ever appears, and no filter parameter value can cause such a
row to appear. -/
theorem C1_list_ownership :
    (∀ (db : DB) (u : Nat) (p : Option String) (res : List Tag),
      tagList db u p = .ok res → ∀ t ∈ res, t.user = u) ∧
    (∀ (db : DB) (u : Nat) (p : Option String) (res : List Ingredient),
      ingredientList db u p = .ok res → ∀ t ∈ res, t.user = u) ∧
    (∀ (db : DB) (u : Nat) (tp ip : Option String) (res : List Recipe),
      recipeList db u tp ip = .ok res → ∀ r ∈ res, r.user = u) := by
  refine ⟨?_, ?_, ?_⟩
  · intro db u p res h t ht
    rcases tagList_ok h with ⟨n, _, rfl⟩
    exact of_decide_eq_true ((mem_scopeChain _ _ _ _).1 ht).2
  · intro db u p res h t ht
    rcases ingredientList_ok h with ⟨n, _, rfl⟩
    exact of_decide_eq_true ((mem_scopeChain _ _ _ _).1 ht).2
  · intro db u tp ip res h r hr
    rcases recipeList_ok h with ⟨l1, l2, _, _, rfl⟩
    exact of_decide_eq_true ((mem_scopeChain _ _ _ _).1 hr).2

/-- Witness for C1: a concrete list request on `dbW` returning a row, whose
owner the theorem then equates with the principal. -/
theorem C1_list_ownership_witness :
    tagList dbW 1 none = .ok [⟨2, "Breakfast", 1⟩, ⟨1, "Lunch", 1⟩] ∧
      (⟨2, "Breakfast", 1⟩ : Tag).user = 1 :=
  ⟨by rfl, C1_list_ownership.1 dbW 1 none
    [⟨2, "Breakfast", 1⟩, ⟨1, "Lunch", 1⟩] (by rfl) _ (by simp)⟩

/-- C2: a retrieve-by-id (or update-by-id, which resolves its target through
the same lookup) request for a row owned by a different user fails with the
not-found outcome (404, detail "Not found."), the same outcome as for an
identifier for which no row exists at all; the outcome type has no
distinguishing forbidden constructor, so a 403 never occurs.  The single
hypothesis covers both the not-owned and the nonexistent case, so the two
outcomes are literally equal. -/
theorem C2_not_found_indistinguishable :
    (∀ (db : DB) (u pk : Nat), (∀ t ∈ db.tags, t.id = pk → t.user ≠ u) →
      detailTag db u pk = .notFound "Not found.") ∧
    (∀ (db : DB) (u pk : Nat),
      (∀ t ∈ db.ingredients, t.id = pk → t.user ≠ u) →
      detailIngredient db u pk = .notFound "Not found.") ∧
    (∀ (db : DB) (u pk : Nat), (∀ r ∈ db.recipes, r.id = pk → r.user ≠ u) →
      detailRecipe db u pk = .notFound "Not found.") := by
  refine ⟨?_, ?_, ?_⟩
  · intro db u pk hyp
    have hf : (scopeChain tagLe (fun t => decide (t.user = u)) db.tags).find?
        (fun t => decide (t.id = pk)) = none := by
      rw [List.find?_eq_none]
      intro t ht hdec
      rcases (mem_scopeChain _ _ _ _).1 ht with ⟨hmem, huser⟩
      exact hyp t hmem (of_decide_eq_true hdec) (of_decide_eq_true huser)
    unfold detailTag
    rw [hf]
  · intro db u pk hyp
    have hf : (scopeChain ingredientLe (fun t => decide (t.user = u))
        db.ingredients).find? (fun t => decide (t.id = pk)) = none := by
      rw [List.find?_eq_none]
      intro t ht hdec
      rcases (mem_scopeChain _ _ _ _).1 ht with ⟨hmem, huser⟩
      exact hyp t hmem (of_decide_eq_true hdec) (of_decide_eq_true huser)
    unfold detailIngredient
    rw [hf]
  · intro db u pk hyp
    have hf : (scopeChain recipeGe (fun r => decide (r.user = u))
        db.recipes).find? (fun r => decide (r.id = pk)) = none := by
      rw [List.find?_eq_none]
      intro t ht hdec
      rcases (mem_scopeChain _ _ _ _).1 ht with ⟨hmem, huser⟩
      exact hyp t hmem (of_decide_eq_true hdec) (of_decide_eq_true huser)
    unfold detailRecipe
    rw [hf]

/-- Witness for C2: in `dbW`, tag 3 belongs to user 2 and tag 99 does not
exist; for principal 1 both lookups produce the identical not-found
outcome. -/
theorem C2_not_found_indistinguishable_witness :
    (∀ t ∈ dbW.tags, t.id = 3 → t.user ≠ 1) ∧
      detailTag dbW 1 3 = .notFound "Not found." ∧
      detailTag dbW 1 99 = .notFound "Not found." :=
  ⟨by decide, C2_not_found_indistinguishable.1 dbW 1 3 (by decide),
    C2_not_found_indistinguishable.1 dbW 1 99 (by decide)⟩

/-- C6: every list result is duplicate-free, and it is sorted: tags and
ingredients ascending by name (`tagLe`/`ingredientLe` is the ordinal
comparison of the `name` field), recipes descending by identifier
(`recipeGe a b` is `b.id ≤ a.id`). -/
theorem C6_distinct_and_ordered :
    (∀ (db : DB) (u : Nat) (p : Option String) (res : List Tag),
      tagList db u p = .ok res → res.Nodup ∧ res.Sorted tagLe) ∧
    (∀ (db : DB) (u : Nat) (p : Option String) (res : List Ingredient),
      ingredientList db u p = .ok res → res.Nodup ∧ res.Sorted ingredientLe) ∧
    (∀ (db : DB) (u : Nat) (tp ip : Option String) (res : List Recipe),
      recipeList db u tp ip = .ok res → res.Nodup ∧ res.Sorted recipeGe) := by
  refine ⟨?_, ?_, ?_⟩
  · intro db u p res h
    rcases tagList_ok h with ⟨n, _, rfl⟩
    exact ⟨nodup_scopeChain _ _ _, sorted_scopeChain _ _ _⟩
  · intro db u p res h
    rcases ingredientList_ok h with ⟨n, _, rfl⟩
    exact ⟨nodup_scopeChain _ _ _, sorted_scopeChain _ _ _⟩
  · intro db u tp ip res h
    rcases recipeList_ok h with ⟨l1, l2, _, _, rfl⟩
    exact ⟨nodup_scopeChain _ _ _, sorted_scopeChain _ _ _⟩

/-- Witness for C6: a concrete recipe list on `dbW` filtered by two tag ids,
in which recipe 11 matches through both ids yet appears once, with the
theorem yielding its duplicate-freedom and descending-id order. -/
theorem C6_distinct_and_ordered_witness :
    recipeList dbW 2 (some "1,3") none =
      .ok [⟨11, "Porridge", "", 3, "", 2, [1, 3], [5]⟩] ∧
      ([⟨11, "Porridge", "", 3, "", 2, [1, 3], [5]⟩] : List Recipe).Nodup ∧
      ([⟨11, "Porridge", "", 3, "", 2, [1, 3], [5]⟩] : List Recipe).Sorted
        recipeGe :=
  ⟨by rfl,
    (C6_distinct_and_ordered.2.2 dbW 2 (some "1,3") none _ (by rfl)).1,
    (C6_distinct_and_ordered.2.2 dbW 2 (some "1,3") none _ (by rfl)).2⟩

/-- C9: a recipe list request with `tags` or `ingredients` present but equal
to the empty string is treated exactly as if the parameter were absent (the
parameter is falsy, so no error and no restriction), while a tag or
ingredient list request with `assigned_only` present but empty fails with
the "assigned_only must be an integer" error (`int('')` raises): the two
endpoints treat a present-but-empty parameter asymmetrically. -/
theorem C9_empty_param_asymmetry :
    (∀ (db : DB) (u : Nat) (ip : Option String),
      recipeList db u (some "") ip = recipeList db u none ip) ∧
    (∀ (db : DB) (u : Nat) (tp : Option String),
      recipeList db u tp (some "") = recipeList db u tp none) ∧
    (∀ (db : DB) (u : Nat),
      tagList db u (some "") = .error "assigned_only must be an integer") ∧
    (∀ (db : DB) (u : Nat),
      ingredientList db u (some "") =
        .error "assigned_only must be an integer") := by
  refine ⟨fun db u ip => rfl, ?_, fun db u => rfl, fun db u => rfl⟩
  intro db u tp
  unfold recipeList
  rcases h : applyTagFilter tp db.recipes with e | l1 <;> rfl

/-- C4: a non-integer token in a filter parameter makes the list operation
fail with the fixed parameter-specific message, for every database state
(the error is raised by the parse step, before the ownership filter or any
row access), including a state in which the principal owns zero rows. -/
theorem C4_parse_errors_uniform :
    (∀ (db : DB) (u : Nat) (s : String), pyInt s = none →
      tagList db u (some s) = .error "assigned_only must be an integer") ∧
    (∀ (db : DB) (u : Nat) (s : String), pyInt s = none →
      ingredientList db u (some s) =
        .error "assigned_only must be an integer") ∧
    (∀ (db : DB) (u : Nat) (s : String) (ip : Option String), s ≠ "" →
      parseIntList s = none →
      recipeList db u (some s) ip =
        .error "tags must be a comma separated list of integers") ∧
    (∀ (db : DB) (u : Nat) (tp : Option String) (s : String)
      (l1 : List Recipe), applyTagFilter tp db.recipes = .ok l1 → s ≠ "" →
      parseIntList s = none →
      recipeList db u tp (some s) =
        .error "ingredients must be a comma separated list of integers") := by
  refine ⟨?_, ?_, ?_, ?_⟩
  · intro db u s hp
    unfold tagList
    simp [assignedParam, hp]
  · intro db u s hp
    unfold ingredientList
    simp [assignedParam, hp]
  · intro db u s ip hs hp
    unfold recipeList
    have h1 : applyTagFilter (some s) db.recipes =
        .error "tags must be a comma separated list of integers" := by
      simp [applyTagFilter, hs, hp]
    rw [h1, except_bind_error]
  · intro db u tp s l1 h1 hs hp
    unfold recipeList
    rw [h1, except_bind_ok]
    have h2 : applyIngredientFilter (some s) l1 =
        .error "ingredients must be a comma separated list of integers" := by
      simp [applyIngredientFilter, hs, hp]
    rw [h2, except_bind_error]

/-- Witness for C4: malformed parameters on the empty database, where the
principal owns zero rows, produce the fixed messages. -/
theorem C4_parse_errors_uniform_witness :
    pyInt "wrong" = none ∧ parseIntList "1,x" = none ∧
      tagList dbEmpty 1 (some "wrong") =
        .error "assigned_only must be an integer" ∧
      ingredientList dbEmpty 1 (some "wrong") =
        .error "assigned_only must be an integer" ∧
      recipeList dbEmpty 1 (some "1,x") none =
        .error "tags must be a comma separated list of integers" ∧
      recipeList dbEmpty 1 none (some "1,x") =
        .error "ingredients must be a comma separated list of integers" :=
  ⟨by rfl, by rfl,
    C4_parse_errors_uniform.1 dbEmpty 1 "wrong" (by rfl),
    C4_parse_errors_uniform.2.1 dbEmpty 1 "wrong" (by rfl),
    C4_parse_errors_uniform.2.2.1 dbEmpty 1 "1,x" none (by decide) (by rfl),
    C4_parse_errors_uniform.2.2.2 dbEmpty 1 none "1,x" [] (by rfl) (by decide)
      (by rfl)⟩

/-- C5: with `tags` parsing to `ids`, the recipe list returns exactly the
principal's recipes whose tag set intersects `ids` (any one match suffices);
`ingredients` behaves symmetrically; and giving both parameters combines the
two restrictions as a logical AND. -/
theorem C5_recipe_filter_semantics (db : DB) (u : Nat) (s s' : String)
    (ids ids' : List Int) (hs : s ≠ "") (hs' : s' ≠ "")
    (hp : parseIntList s = some ids) (hp' : parseIntList s' = some ids') :
    (∀ res, recipeList db u (some s) none = .ok res →
      ∀ r, r ∈ res ↔ r ∈ db.recipes ∧ r.user = u ∧
        ∃ t : Nat, t ∈ r.tags ∧ (t : Int) ∈ ids) ∧
    (∀ res, recipeList db u none (some s') = .ok res →
      ∀ r, r ∈ res ↔ r ∈ db.recipes ∧ r.user = u ∧
        ∃ t : Nat, t ∈ r.ingredients ∧ (t : Int) ∈ ids') ∧
    (∀ res, recipeList db u (some s) (some s') = .ok res →
      ∀ r, r ∈ res ↔ r ∈ db.recipes ∧ r.user = u ∧
        (∃ t : Nat, t ∈ r.tags ∧ (t : Int) ∈ ids) ∧
        (∃ t : Nat, t ∈ r.ingredients ∧ (t : Int) ∈ ids')) := by
  have e1 : applyTagFilter (some s) db.recipes =
      .ok (recipeTagJoin ids db.recipes) := by
    simp [applyTagFilter, hs, hp]
  refine ⟨?_, ?_, ?_⟩
  · intro res h r
    rcases recipeList_ok h with ⟨l1, l2, h1, h2, rfl⟩
    rw [e1] at h1
    injection h1 with h1
    subst h1
    injection h2 with h2
    subst h2
    rw [mem_scopeChain, mem_recipeTagJoin, decide_eq_true_eq]
    constructor
    · rintro ⟨⟨hmem, t, ht, hi⟩, huser⟩
      exact ⟨hmem, huser, t, ht, hi⟩
    · rintro ⟨hmem, huser, t, ht, hi⟩
      exact ⟨⟨hmem, t, ht, hi⟩, huser⟩
  · intro res h r
    rcases recipeList_ok h with ⟨l1, l2, h1, h2, rfl⟩
    injection h1 with h1
    subst h1
    have e2 : applyIngredientFilter (some s') db.recipes =
        .ok (recipeIngredientJoin ids' db.recipes) := by
      simp [applyIngredientFilter, hs', hp']
    rw [e2] at h2
    injection h2 with h2
    subst h2
    rw [mem_scopeChain, mem_recipeIngredientJoin, decide_eq_true_eq]
    constructor
    · rintro ⟨⟨hmem, t, ht, hi⟩, huser⟩
      exact ⟨hmem, huser, t, ht, hi⟩
    · rintro ⟨hmem, huser, t, ht, hi⟩
      exact ⟨⟨hmem, t, ht, hi⟩, huser⟩
  · intro res h r
    rcases recipeList_ok h with ⟨l1, l2, h1, h2, rfl⟩
    rw [e1] at h1
    injection h1 with h1
    subst h1
    have e2 : applyIngredientFilter (some s') (recipeTagJoin ids db.recipes) =
        .ok (recipeIngredientJoin ids' (recipeTagJoin ids db.recipes)) := by
      simp [applyIngredientFilter, hs', hp']
    rw [e2] at h2
    injection h2 with h2
    subst h2
    rw [mem_scopeChain, mem_recipeIngredientJoin, mem_recipeTagJoin,
      decide_eq_true_eq]
    constructor
    · rintro ⟨⟨⟨hmem, ht⟩, hi⟩, huser⟩
      exact ⟨hmem, huser, ht, hi⟩
    · rintro ⟨hmem, huser, ht, hi⟩
      exact ⟨⟨⟨hmem, ht⟩, hi⟩, huser⟩

/-- Witness for C5: on `dbW`, filtering user 2's recipes by tags "1,3" and
ingredients "5" exercises all three conjuncts at concrete inputs. -/
theorem C5_recipe_filter_semantics_witness :
    ("1,3" : String) ≠ "" ∧ parseIntList "1,3" = some [1, 3] ∧
      parseIntList "5" = some [5] ∧
      (∀ r, r ∈ [(⟨11, "Porridge", "", 3, "", 2, [1, 3], [5]⟩ : Recipe)] ↔
        r ∈ dbW.recipes ∧ r.user = 2 ∧
          (∃ t : Nat, t ∈ r.tags ∧ (t : Int) ∈ [(1 : Int), 3]) ∧
          ∃ t : Nat, t ∈ r.ingredients ∧ (t : Int) ∈ [(5 : Int)]) :=
  ⟨by decide, by rfl, by rfl,
    (C5_recipe_filter_semantics dbW 2 "1,3" "5" [1, 3] [5] (by decide)
      (by decide) (by rfl) (by rfl)).2.2 _ (by rfl)⟩

/-- C3 counterexample: in `dbX` the only recipe belongs to user 2, yet with
`assigned_only=1` user 1's tag list contains the tag attached to that foreign
recipe — refuting the claim that only tags referenced by a Recipe of the
requesting user are returned (`filter(recipe__isnull=False)` does not
restrict the related recipe's owner). -/
theorem C3_counterexample_any_user_recipe :
    tagList dbX 1 (some "1") = .ok [⟨1, "Breakfast", 1⟩] ∧
      ¬ ∃ r, r ∈ dbX.recipes ∧ r.user = 1 ∧ (1 : Nat) ∈ r.tags :=
  ⟨by rfl, by decide⟩

/-- C3 (amended): with `assigned_only` parsing to a nonzero integer, the
tag/ingredient list returns exactly the principal's tags/ingredients that
are referenced by at least one Recipe of ANY user (not only the requesting
user), each appearing exactly once. -/
theorem C3_assigned_only_semantics :
    (∀ (db : DB) (u : Nat) (s : String) (n : Int), pyInt s = some n →
      n ≠ 0 → ∀ res, tagList db u (some s) = .ok res →
        (∀ t, t ∈ res ↔ t ∈ db.tags ∧ t.user = u ∧
          ∃ r ∈ db.recipes, t.id ∈ r.tags) ∧ res.Nodup) ∧
    (∀ (db : DB) (u : Nat) (s : String) (n : Int), pyInt s = some n →
      n ≠ 0 → ∀ res, ingredientList db u (some s) = .ok res →
        (∀ t, t ∈ res ↔ t ∈ db.ingredients ∧ t.user = u ∧
          ∃ r ∈ db.recipes, t.id ∈ r.ingredients) ∧ res.Nodup) := by
  constructor
  · intro db u s n hp hn res h
    rcases tagList_ok h with ⟨n', hn', rfl⟩
    rw [show assignedParam (some s) = pyInt s from rfl, hp] at hn'
    injection hn' with hn'
    subst hn'
    rw [if_pos hn]
    refine ⟨fun t => ?_, nodup_scopeChain _ _ _⟩
    rw [mem_scopeChain, mem_tagAssignedJoin, decide_eq_true_eq]
    constructor
    · rintro ⟨⟨hmem, hr⟩, huser⟩
      exact ⟨hmem, huser, hr⟩
    · rintro ⟨hmem, huser, hr⟩
      exact ⟨⟨hmem, hr⟩, huser⟩
  · intro db u s n hp hn res h
    rcases ingredientList_ok h with ⟨n', hn', rfl⟩
    rw [show assignedParam (some s) = pyInt s from rfl, hp] at hn'
    injection hn' with hn'
    subst hn'
    rw [if_pos hn]
    refine ⟨fun t => ?_, nodup_scopeChain _ _ _⟩
    rw [mem_scopeChain, mem_ingredientAssignedJoin, decide_eq_true_eq]
    constructor
    · rintro ⟨⟨hmem, hr⟩, huser⟩
      exact ⟨hmem, huser, hr⟩
    · rintro ⟨hmem, huser, hr⟩
      exact ⟨⟨hmem, hr⟩, huser⟩

/-- Witness for C3 (amended): the `dbX` instantiation where user 1's tag is
assigned only to a foreign recipe and is still returned. -/
theorem C3_assigned_only_semantics_witness :
    pyInt "1" = some 1 ∧ (1 : Int) ≠ 0 ∧
      tagList dbX 1 (some "1") = .ok [⟨1, "Breakfast", 1⟩] ∧
      ((∀ t, t ∈ [(⟨1, "Breakfast", 1⟩ : Tag)] ↔ t ∈ dbX.tags ∧ t.user = 1 ∧
        ∃ r ∈ dbX.recipes, t.id ∈ r.tags) ∧
        ([(⟨1, "Breakfast", 1⟩ : Tag)] : List Tag).Nodup) :=
  ⟨by rfl, by decide, by rfl,
    C3_assigned_only_semantics.1 dbX 1 "1" 1 (by rfl) (by decide) _ (by rfl)⟩

/-- C7: a PUT whose payload omits a many-to-many field resets it to empty,
while a PATCH omitting any field leaves that field at its previous value. -/
theorem C7_put_replaces_patch_merges :
    ∀ (r : Recipe) (p : RecipePayload),
      (p.tags = none → (updateRecipe r p .put).tags = [] ∧
        (updateRecipe r p .patch).tags = r.tags) ∧
      (p.ingredients = none → (updateRecipe r p .put).ingredients = [] ∧
        (updateRecipe r p .patch).ingredients = r.ingredients) ∧
      (p.title = none → (updateRecipe r p .patch).title = r.title) ∧
      (p.description = none →
        (updateRecipe r p .patch).description = r.description) ∧
      (p.time_mins = none →
        (updateRecipe r p .patch).time_mins = r.time_mins) ∧
      (p.link = none → (updateRecipe r p .patch).link = r.link) := by
  intro r p
  refine ⟨fun h => ?_, fun h => ?_, fun h => ?_, fun h => ?_, fun h => ?_,
    fun h => ?_⟩ <;> simp [updateRecipe, h]

/-- Witness for C7: a concrete recipe with one tag, updated with the empty
payload: PUT clears the tags, PATCH keeps them. -/
theorem C7_put_replaces_patch_merges_witness :
    (updateRecipe ⟨1, "a", "b", 2, "c", 1, [5], [6]⟩
      ⟨none, none, none, none, none, none⟩ .put).tags = [] ∧
      (updateRecipe ⟨1, "a", "b", 2, "c", 1, [5], [6]⟩
        ⟨none, none, none, none, none, none⟩ .patch).tags = [5] :=
  ⟨((C7_put_replaces_patch_merges ⟨1, "a", "b", 2, "c", 1, [5], [6]⟩
      ⟨none, none, none, none, none, none⟩).1 rfl).1,
    ((C7_put_replaces_patch_merges ⟨1, "a", "b", 2, "c", 1, [5], [6]⟩
      ⟨none, none, none, none, none, none⟩).1 rfl).2⟩

/-- C10: the related-id validation querysets are the full tables, so a user
can create a recipe that attaches a tag owned by a different user: the
create succeeds, the new row is owned by the principal, and the foreign
tag's id is attached to it. -/
theorem C10_cross_user_relations (db : DB) (u1 u2 rid tm : Nat)
    (title descr lnk : String) (t : Tag) (ht : t ∈ db.tags)
    (hu : t.user = u2) (hne : u2 ≠ u1) :
    ∃ db' r, createRecipe db u1 rid title descr tm lnk [t.id] [] =
        some (db', r) ∧ r.user = u1 ∧ r.tags = [t.id] ∧ r ∈ db'.recipes := by
  have hc1 : [t.id].all
      (fun i => db.tags.any (fun tg => decide (tg.id = i))) = true := by
    simp only [List.all_cons, List.all_nil, Bool.and_true, List.any_eq_true,
      decide_eq_true_eq]
    exact ⟨t, ht, rfl⟩
  refine ⟨{db with recipes :=
      db.recipes ++ [⟨rid, title, descr, tm, lnk, u1, [t.id], []⟩]},
    ⟨rid, title, descr, tm, lnk, u1, [t.id], []⟩, ?_, rfl, rfl, by simp⟩
  simp [createRecipe, hc1]

/-- Witness for C10: in `dbW`, user 1 creates a recipe attaching user 2's
tag 3. -/
theorem C10_cross_user_relations_witness :
    (⟨3, "Vegan", 2⟩ : Tag) ∈ dbW.tags ∧ (⟨3, "Vegan", 2⟩ : Tag).user = 2 ∧
      (2 : Nat) ≠ 1 ∧
      ∃ db' r, createRecipe dbW 1 20 "Toast" "" 7 "" [3] [] =
        some (db', r) ∧ r.user = 1 ∧ r.tags = [3] ∧ r ∈ db'.recipes :=
  ⟨by decide, by decide, by decide,
    C10_cross_user_relations dbW 1 2 20 7 "Toast" "" "" ⟨3, "Vegan", 2⟩
      (by decide) rfl (by decide)⟩

/-- C8: creating a recipe with the ids of two existing tags owned by the
principal and then retrieving its detail view yields exactly the set
consisting of those two tags as nested tag objects (order-insensitive set
equality, stated as a membership equivalence). -/
theorem C8_create_retrieve_roundtrip (db : DB) (u rid tm : Nat)
    (title : String) (t1 t2 : Tag) (hwf : (db.tags.map Tag.id).Nodup)
    (ht1 : t1 ∈ db.tags) (ht2 : t2 ∈ db.tags) (hu1 : t1.user = u)
    (hu2 : t2.user = u) (hne : t1.id ≠ t2.id)
    (hfresh : ∀ r ∈ db.recipes, r.id ≠ rid) :
    ∃ db' r, createRecipe db u rid title "" tm "" [t1.id, t2.id] [] =
        some (db', r) ∧ detailRecipe db' u rid = .ok r ∧
        ∀ t : Tag, t ∈ detailTagsOf db' r ↔ t = t1 ∨ t = t2 := by
  have hc1 : [t1.id, t2.id].all
      (fun i => db.tags.any (fun tg => decide (tg.id = i))) = true := by
    simp only [List.all_cons, List.all_nil, Bool.and_true, Bool.and_eq_true,
      List.any_eq_true, decide_eq_true_eq]
    exact ⟨⟨t1, ht1, rfl⟩, t2, ht2, rfl⟩
  refine ⟨{db with recipes :=
      db.recipes ++ [⟨rid, title, "", tm, "", u, [t1.id, t2.id], []⟩]},
    ⟨rid, title, "", tm, "", u, [t1.id, t2.id], []⟩, ?_, ?_, ?_⟩
  · simp [createRecipe, hc1]
  · unfold detailRecipe
    have hfind : (scopeChain recipeGe (fun r => decide (r.user = u))
        (db.recipes ++ [⟨rid, title, "", tm, "", u, [t1.id, t2.id], []⟩])).find?
          (fun r => decide (r.id = rid)) =
        some ⟨rid, title, "", tm, "", u, [t1.id, t2.id], []⟩ := by
      apply find_eq_some_of_unique
      · rw [mem_scopeChain]
        exact ⟨List.mem_append_right _ (by simp), by simp⟩
      · simp
      · intro y hy hpy
        rcases (mem_scopeChain _ _ _ _).1 hy with ⟨hmem, _⟩
        rcases List.mem_append.1 hmem with hold | hnew
        · exact absurd (of_decide_eq_true hpy) (hfresh y hold)
        · simpa using hnew
    rw [show ({db with recipes := db.recipes ++
        [⟨rid, title, "", tm, "", u, [t1.id, t2.id], []⟩]} : DB).recipes =
        db.recipes ++ [⟨rid, title, "", tm, "", u, [t1.id, t2.id], []⟩]
      from rfl, hfind]
  · intro t
    simp only [detailTagsOf, List.mem_filter, decide_eq_true_eq]
    constructor
    · rintro ⟨hmem, hid⟩
      simp only [List.mem_cons, List.not_mem_nil, or_false] at hid
      rcases hid with hid | hid
      · exact Or.inl (List.inj_on_of_nodup_map hwf hmem ht1 hid)
      · exact Or.inr (List.inj_on_of_nodup_map hwf hmem ht2 hid)
    · rintro (rfl | rfl)
      · exact ⟨ht1, by simp⟩
      · exact ⟨ht2, by simp⟩

/-- Witness for C8: user 1 creates a recipe in `dbW` from tags 1 and 2 and
the detail view returns exactly those two tags. -/
theorem C8_create_retrieve_roundtrip_witness :
    (dbW.tags.map Tag.id).Nodup ∧ (∀ r ∈ dbW.recipes, r.id ≠ 20) ∧
      ∃ db' r, createRecipe dbW 1 20 "Toast" "" 5 "" [1, 2] [] =
        some (db', r) ∧ detailRecipe db' 1 20 = .ok r ∧
        ∀ t : Tag, t ∈ detailTagsOf db' r ↔
          t = ⟨1, "Lunch", 1⟩ ∨ t = ⟨2, "Breakfast", 1⟩ :=
  ⟨by decide, by decide,
    C8_create_retrieve_roundtrip dbW 1 20 5 "Toast" ⟨1, "Lunch", 1⟩
      ⟨2, "Breakfast", 1⟩ (by decide) (by decide) (by decide) rfl rfl
      (by decide) (by decide)⟩
